import Mathlib

/-!
Verification development for the Therian chat backend
(`server.js`, v2 server in the same repository, `setup-db.js`, `db/schema.sql`).

The server is an Express + Socket.io + PostgreSQL application.  We shallowly
embed its state and its request handlers as pure Lean functions:

* the PostgreSQL tables (`users`, `messages`, `dm_messages`) become lists of
  records inside a `ServerState`;
* the in-memory `connectedUsers` map (socket id ↦ cached session snapshot)
  becomes an association list;
* Socket.io channel membership (`socket.rooms` minus the socket's own private
  room) becomes an association list from socket id to the list of joined
  channels;
* each HTTP route / socket event handler becomes a function
  `ServerState → … → ServerState × List Output`, where `Output` records the
  events the handler emits (`socket.emit`, `io.to(channel).emit`, forced
  disconnects);
* the database round trip of an `INSERT` is modelled by a `dbOk : Bool`
  environment parameter (the promise resolving or rejecting) and a server
  clock `now : Nat` standing for `NOW()`;
* JavaScript's `String.prototype.trim` and `String.prototype.split("_")` are
  embedded as explicit structural functions over `String.data`.
-/

namespace Therian

/-- Whitespace predicate used by the embedding of JavaScript's
`String.prototype.trim` (space, tab, newline, carriage return). -/
def isJsSpace (c : Char) : Bool :=
  c == ' ' || c == '\t' || c == '\n' || c == '\r'

/-- Trimming of a character list: drop leading and trailing whitespace,
embedding `text.trim()` from the handlers. -/
def trimChars (l : List Char) : List Char :=
  ((l.dropWhile isJsSpace).reverse.dropWhile isJsSpace).reverse

/-- Embedding of JavaScript `s.trim()`. -/
def jsTrim (s : String) : String :=
  ⟨trimChars s.data⟩

/-- Split a character list at every underscore.  `acc` holds the current
segment, reversed. -/
def splitCharsAux : List Char → List Char → List (List Char)
  | [], acc => [acc.reverse]
  | c :: cs, acc =>
    if c == '_' then acc.reverse :: splitCharsAux cs []
    else splitCharsAux cs (c :: acc)

/-- Embedding of JavaScript `s.split("_")` as used for DM chat identifiers
(`chatId.split("_")`). -/
def splitUnderscore (s : String) : List String :=
  (splitCharsAux s.data []).map (fun l => ⟨l⟩)

/-- Cached profile snapshot stored in the `connectedUsers` map on successful
socket authentication: `{ uid, name, photo, premium }`. -/
structure SessionInfo where
  uid : String
  name : String
  photo : String
  premium : Bool
deriving DecidableEq, Repr

/-- A row of the `users` table (`id, name, photo, email, premium, is_banned,
last_seen`). -/
structure UserRow where
  id : String
  name : String
  photo : String
  email : String
  premium : Bool
  isBanned : Bool
  lastSeen : Nat
deriving DecidableEq, Repr

/-- A row of the `messages` table (when `channelId` is a `room_id`) or of the
`dm_messages` table (when `channelId` is a `chat_id`). -/
structure Message where
  id : Nat
  channelId : String
  userId : String
  text : String
  createdAt : Nat
deriving DecidableEq, Repr

/-- The payload of a `new_message` / `new_dm` broadcast: the persisted row's
id, text and timestamp together with the sender's cached profile. -/
structure WireMsg where
  id : Nat
  channelId : String
  userId : String
  name : String
  photo : String
  premium : Bool
  text : String
  createdAt : Nat
deriving DecidableEq, Repr

/-- Observable effects of a handler: a `socket.emit` to one socket, an
`io.to(channel).emit` fanout of a chat message, a fanout of a
`message_deleted` retraction, or a forced socket disconnect. -/
inductive Output where
  | emit (sid : String) (event : String) (payload : String)
  | broadcast (channel : String) (event : String) (msg : WireMsg)
  | retract (channel : String) (msgId : Nat)
  | disconnectSock (sid : String)
deriving DecidableEq, Repr

/-- The payload Google's token verification returns for a valid id token
(`sub, name, picture, email`). -/
structure GUser where
  sub : String
  name : String
  picture : String
  email : String
deriving DecidableEq, Repr

/-- Result of the `POST /api/auth/google` login exchange: either a signed JWT
(binding `tokenUid`) plus the user row, or an HTTP error status + message. -/
inductive AuthGoogleResult where
  | ok (tokenUid : String) (user : UserRow)
  | error (status : Nat) (message : String)
deriving DecidableEq, Repr

/-- Whole-server state: the three persistent tables with their serial
counters, the in-memory `connectedUsers` registry, and Socket.io channel
membership (socket id ↦ currently joined channels, the socket's own private
room left implicit). -/
structure ServerState where
  users : List UserRow
  messages : List Message
  dmMessages : List Message
  nextMsgId : Nat
  nextDmId : Nat
  connectedUsers : List (String × SessionInfo)
  rooms : List (String × List String)
deriving DecidableEq, Repr

/-- Freshly started server over an empty database. -/
def initialState : ServerState :=
  ⟨[], [], [], 1, 1, [], []⟩

/-- Association-list lookup (embeds `Map.prototype.get`). -/
def getAssoc {α : Type} (l : List (String × α)) (k : String) : Option α :=
  (l.find? (fun p => p.1 == k)).map (fun p => p.2)

/-- Association-list update (embeds `Map.prototype.set`): any previous binding
of `k` is dropped and the new binding appended. -/
def setAssoc {α : Type} (l : List (String × α)) (k : String) (v : α) :
    List (String × α) :=
  l.filter (fun p => p.1 != k) ++ [(k, v)]

/-- Association-list deletion (embeds `Map.prototype.delete`). -/
def delAssoc {α : Type} (l : List (String × α)) (k : String) :
    List (String × α) :=
  l.filter (fun p => p.1 != k)

/-- `SELECT * FROM users WHERE id = uid` on a table value. -/
def findUserL (users : List UserRow) (uid : String) : Option UserRow :=
  users.find? (fun u => u.id == uid)

/-- `UPDATE users SET … WHERE id = uid`: apply `f` to every row keyed `uid`. -/
def updateUser (users : List UserRow) (uid : String) (f : UserRow → UserRow) :
    List UserRow :=
  users.map (fun u => if u.id == uid then f u else u)

/-- `SELECT * FROM users WHERE id = uid` against the server state. -/
def findUser (st : ServerState) (uid : String) : Option UserRow :=
  findUserL st.users uid

/-- The channels a socket is currently joined to (its Socket.io rooms other
than its own private room). -/
def roomsOf (st : ServerState) (sid : String) : List String :=
  (getAssoc st.rooms sid).getD []

/-- The member sockets of a channel — who an `io.to(channel).emit` reaches. -/
def membersOf (st : ServerState) (channel : String) : List String :=
  (st.rooms.filter (fun p => p.2.contains channel)).map (fun p => p.1)

/-- `socket.rooms.forEach(r => { if (r !== socket.id) socket.leave(r) })`:
leave every joined channel. -/
def leaveAllChannels (rs : List (String × List String)) (sid : String) :
    List (String × List String) :=
  setAssoc rs sid []

/-- `socket.join(ch)`: add `ch` to the socket's joined channels. -/
def joinChannel (rs : List (String × List String)) (sid ch : String) :
    List (String × List String) :=
  setAssoc rs sid (((getAssoc rs sid).getD []) ++ [ch])

/-- Handler of `socket.on("auth", token)`, v2 server.  `decodedUid` is the
result of `jwt.verify` (`none` when the token is invalid); banned users get a
`banned` event and no registry entry; success caches the profile snapshot and
touches `last_seen`. -/
def socketAuth (st : ServerState) (sid : String) (decodedUid : Option String)
    (now : Nat) : ServerState × List Output :=
  match decodedUid with
  | none => (st, [Output.emit sid "auth_error" "Token invalido"])
  | some uid =>
    match findUser st uid with
    | none => (st, [Output.emit sid "auth_error" "Usuario no encontrado"])
    | some u =>
      if u.isBanned then (st, [Output.emit sid "banned" ""])
      else
        ({ st with
            connectedUsers :=
              setAssoc st.connectedUsers sid ⟨u.id, u.name, u.photo, u.premium⟩,
            users := updateUser st.users uid (fun v => { v with lastSeen := now }) },
         [Output.emit sid "auth_ok" ""])

/-- Handler of `socket.on("join_room", roomId)`: leave all current channels,
then join `"room_" ++ roomId`.  No authentication check. -/
def joinRoom (st : ServerState) (sid roomId : String) :
    ServerState × List Output :=
  ({ st with rooms := joinChannel (leaveAllChannels st.rooms sid) sid ("room_" ++ roomId) },
   [])

/-- Handler of `socket.on("join_dm", chatId)`: requires an authenticated
session whose uid occurs among the underscore-separated components of
`chatId`; otherwise a silent no-op.  On success: leave all, join
`"dm_" ++ chatId`. -/
def joinDm (st : ServerState) (sid chatId : String) :
    ServerState × List Output :=
  match getAssoc st.connectedUsers sid with
  | none => (st, [])
  | some user =>
    if (splitUnderscore chatId).contains user.uid then
      ({ st with rooms := joinChannel (leaveAllChannels st.rooms sid) sid ("dm_" ++ chatId) },
       [])
    else (st, [])

/-- Handler of `socket.on("send_message", { roomId, text })`: silently drop
unless the sender is registered and `text` is non-empty after trimming and at
most 500 characters before trimming; then `INSERT … RETURNING *` (`dbOk`
models the promise outcome); on success broadcast the returned row to
`"room_" ++ roomId`; on failure emit `message_error` to the sender. -/
def sendMessage (st : ServerState) (sid roomId text : String) (dbOk : Bool)
    (now : Nat) : ServerState × List Output :=
  match getAssoc st.connectedUsers sid with
  | none => (st, [])
  | some user =>
    if text = "" ∨ jsTrim text = "" ∨ text.length > 500 then (st, [])
    else if dbOk then
      let row : Message := ⟨st.nextMsgId, roomId, user.uid, jsTrim text, now⟩
      ({ st with messages := st.messages ++ [row], nextMsgId := st.nextMsgId + 1 },
       [Output.broadcast ("room_" ++ roomId) "new_message"
          ⟨row.id, roomId, user.uid, user.name, user.photo, user.premium,
           row.text, row.createdAt⟩])
    else (st, [Output.emit sid "message_error" "storage error"])

/-- Handler of `socket.on("send_dm", { chatId, text })`: same validation as
`sendMessage`, plus the sender's uid must occur among the underscore-separated
components of `chatId`; inserts into `dm_messages` and broadcasts to
`"dm_" ++ chatId`. -/
def sendDm (st : ServerState) (sid chatId text : String) (dbOk : Bool)
    (now : Nat) : ServerState × List Output :=
  match getAssoc st.connectedUsers sid with
  | none => (st, [])
  | some user =>
    if text = "" ∨ jsTrim text = "" ∨ text.length > 500 then (st, [])
    else if (splitUnderscore chatId).contains user.uid then
      if dbOk then
        let row : Message := ⟨st.nextDmId, chatId, user.uid, jsTrim text, now⟩
        ({ st with dmMessages := st.dmMessages ++ [row], nextDmId := st.nextDmId + 1 },
         [Output.broadcast ("dm_" ++ chatId) "new_dm"
            ⟨row.id, chatId, user.uid, user.name, user.photo, user.premium,
             row.text, row.createdAt⟩])
      else (st, [Output.emit sid "message_error" "storage error"])
    else (st, [])

/-- Handler of `socket.on("disconnect")` combined with Socket.io's removal of
a closed socket from all of its rooms: touch `last_seen` when the socket was
registered, drop the registry entry and all channel memberships. -/
def disconnectSocket (st : ServerState) (sid : String) (now : Nat) :
    ServerState × List Output :=
  match getAssoc st.connectedUsers sid with
  | none => ({ st with rooms := delAssoc st.rooms sid }, [])
  | some user =>
    ({ st with
        users := updateUser st.users user.uid (fun v => { v with lastSeen := now }),
        connectedUsers := delAssoc st.connectedUsers sid,
        rooms := delAssoc st.rooms sid }, [])

/-- Handler of `POST /api/auth/google`, v2 server.  `g` is the verified Google
payload (`none` when verification failed, answered 401).  The user row is
upserted first — fresh insert with `is_banned` defaulting to false, or
conflict update touching `last_seen` and `photo` — and only then is the
returned row's ban flag checked (403 on banned); otherwise a JWT for `uid` is
issued. -/
def authGoogle (st : ServerState) (g : Option GUser) (now : Nat) :
    ServerState × AuthGoogleResult :=
  match g with
  | none => (st, .error 401 "Token invalido")
  | some gu =>
    match findUser st gu.sub with
    | none =>
      let row : UserRow :=
        ⟨gu.sub, (if gu.name = "" then "Anonymous Therian" else gu.name),
         gu.picture, gu.email, false, false, now⟩
      ({ st with users := st.users ++ [row] }, .ok gu.sub row)
    | some u =>
      let u2 : UserRow := { u with lastSeen := now, photo := gu.picture }
      let upd : UserRow → UserRow := fun w => { w with lastSeen := now, photo := gu.picture }
      let st2 : ServerState := { st with users := updateUser st.users gu.sub upd }
      if u2.isBanned then (st2, .error 403 "Tu cuenta ha sido baneada de Therians.")
      else (st2, .ok gu.sub u2)

/-- Handler of `POST /api/admin/ban/:uid` (past the auth/admin middleware):
`UPDATE users SET is_banned = TRUE`, then emit `banned` to every connected
socket of that uid and forcibly disconnect it (which tears down its registry
entry and channel memberships). -/
def adminBan (st : ServerState) (targetUid : String) :
    ServerState × List Output :=
  let st1 : ServerState :=
    { st with users := updateUser st.users targetUid (fun u => { u with isBanned := true }) }
  let victims : List String :=
    (st1.connectedUsers.filter (fun p => p.2.uid == targetUid)).map (fun p => p.1)
  ({ st1 with
      connectedUsers := st1.connectedUsers.filter (fun p => p.2.uid != targetUid),
      rooms := st1.rooms.filter (fun p => !(victims.contains p.1)) },
   victims.flatMap (fun v => [Output.emit v "banned" "", Output.disconnectSock v]))

/-- Handler of `POST /api/admin/unban/:uid`:
`UPDATE users SET is_banned = FALSE`. -/
def adminUnban (st : ServerState) (targetUid : String) :
    ServerState × List Output :=
  ({ st with users := updateUser st.users targetUid (fun u => { u with isBanned := false }) },
   [])

/-- Handler of `DELETE /api/admin/messages/:msgId`: delete the row; if a row
was deleted, broadcast a `message_deleted` retraction to its room. -/
def adminDeleteMessage (st : ServerState) (msgId : Nat) :
    ServerState × List Output :=
  match st.messages.find? (fun m => m.id == msgId) with
  | none => (st, [])
  | some m =>
    ({ st with messages := st.messages.filter (fun q => q.id != msgId) },
     [Output.retract ("room_" ++ m.channelId) msgId])

/-- Handler of `PUT /api/users/me/name`: reject empty or over-40-character
names, else update the row. -/
def setNameEndpoint (st : ServerState) (uid name : String) :
    ServerState × Bool :=
  if name = "" ∨ name.length > 40 then (st, false)
  else ({ st with users := updateUser st.users uid (fun u => { u with name := name }) },
        true)

/-- Handler of `PUT /api/users/me/photo`: reject an empty photo, else update
the row. -/
def setPhotoEndpoint (st : ServerState) (uid photo : String) :
    ServerState × Bool :=
  if photo = "" then (st, false)
  else ({ st with users := updateUser st.users uid (fun u => { u with photo := photo }) },
        true)

/-- Stable insertion of a message into a list sorted ascending by
`created_at` — one step of the SQL engine's `ORDER BY m.created_at ASC`. -/
def sortInsert (m : Message) : List Message → List Message
  | [] => [m]
  | x :: xs =>
    if x.createdAt ≤ m.createdAt then x :: sortInsert m xs
    else m :: x :: xs

/-- `ORDER BY m.created_at ASC` as a stable insertion sort. -/
def sortByCreated (l : List Message) : List Message :=
  l.foldr sortInsert []

/-- Handler of `GET /api/rooms/:roomId/messages`: the rows of `messages` for
this room whose author still exists (`JOIN users`), ordered by `created_at`
ascending, limited to 80. -/
def roomMessagesEndpoint (st : ServerState) (roomId : String) : List Message :=
  (sortByCreated (st.messages.filter
      (fun m => m.channelId == roomId && st.users.any (fun u => u.id == m.userId)))).take 80

/-- Handler of `GET /api/dms/:chatId/messages`: 403 (`none`) unless the
requester's uid occurs in `chatId.split("_")`; otherwise the rows of
`dm_messages` for this chat whose author still exists, ordered by
`created_at` ascending, limited to 80. -/
def dmMessagesEndpoint (st : ServerState) (requesterUid chatId : String) :
    Option (List Message) :=
  if (splitUnderscore chatId).contains requesterUid then
    some ((sortByCreated (st.dmMessages.filter
        (fun m => m.channelId == chatId && st.users.any (fun u => u.id == m.userId)))).take 80)
  else none

/-- Modelled from the spec: the success condition §4.3 states for
`joinDirect` — the channel name decomposes into exactly two identity ids and
the caller's identity id is one of them.  Kept separate from `joinDm` (the
code) so the two can be compared. -/
def joinDirectSpecOk (chatId uid : String) : Prop :=
  (splitUnderscore chatId).length = 2 ∧ uid ∈ splitUnderscore chatId

instance (chatId uid : String) : Decidable (joinDirectSpecOk chatId uid) := by
  unfold joinDirectSpecOk
  infer_instance

/-- The operations of the core, labelled with their environment inputs
(decoded tokens, database outcomes, the server clock). -/
inductive Op where
  | authOp (sid : String) (decodedUid : Option String) (now : Nat)
  | joinRoomOp (sid roomId : String)
  | joinDmOp (sid chatId : String)
  | sendMessageOp (sid roomId text : String) (dbOk : Bool) (now : Nat)
  | sendDmOp (sid chatId text : String) (dbOk : Bool) (now : Nat)
  | disconnectOp (sid : String) (now : Nat)
  | loginOp (g : Option GUser) (now : Nat)
  | banOp (uid : String)
  | unbanOp (uid : String)
  | deleteMessageOp (msgId : Nat)
  | setNameOp (uid name : String)
  | setPhotoOp (uid photo : String)
deriving DecidableEq, Repr

/-- One step of the server: dispatch an operation to its handler. -/
def step (st : ServerState) (op : Op) : ServerState × List Output :=
  match op with
  | .authOp sid d now => socketAuth st sid d now
  | .joinRoomOp sid r => joinRoom st sid r
  | .joinDmOp sid c => joinDm st sid c
  | .sendMessageOp sid r t ok now => sendMessage st sid r t ok now
  | .sendDmOp sid c t ok now => sendDm st sid c t ok now
  | .disconnectOp sid now => disconnectSocket st sid now
  | .loginOp g now => ((authGoogle st g now).1, [])
  | .banOp uid => adminBan st uid
  | .unbanOp uid => adminUnban st uid
  | .deleteMessageOp m => adminDeleteMessage st m
  | .setNameOp uid n => ((setNameEndpoint st uid n).1, [])
  | .setPhotoOp uid p => ((setPhotoEndpoint st uid p).1, [])

/-- Each connection is joined to at most one channel. -/
def atMostOneChannel (st : ServerState) : Prop :=
  ∀ p ∈ st.rooms, p.2.length ≤ 1

/-- A user row for concrete scenarios. -/
def aliceRow : UserRow := ⟨"A", "Alice", "", "", false, false, 0⟩

/-- Alice's cached session snapshot. -/
def aliceSession : SessionInfo := ⟨"A", "Alice", "", false⟩

/-- Concrete scenario: Alice is authenticated on socket `s1` but has joined no
channel; the database is empty. -/
def aliceState : ServerState :=
  { users := [aliceRow], messages := [], dmMessages := [],
    nextMsgId := 1, nextDmId := 1,
    connectedUsers := [("s1", aliceSession)], rooms := [] }

/-- Concrete scenario: room `lounge` and direct chat `A_B` each hold 81
messages by Alice, with ids and timestamps `1..81`. -/
def fullHistoryState : ServerState :=
  { users := [aliceRow],
    messages := (List.range 81).map (fun i => ⟨i + 1, "lounge", "A", "hi", i + 1⟩),
    dmMessages := (List.range 81).map (fun i => ⟨i + 1, "A_B", "A", "yo", i + 1⟩),
    nextMsgId := 82, nextDmId := 82, connectedUsers := [], rooms := [] }

/-- Concrete scenario: Bob's row exists and is banned; nobody is connected. -/
def bannedBobState : ServerState :=
  { users := [⟨"B", "Bob", "pic0", "e", false, true, 0⟩], messages := [],
    dmMessages := [], nextMsgId := 1, nextDmId := 1,
    connectedUsers := [], rooms := [] }

/-- Concrete scenario: Bob's row exists, not yet banned, and Bob is live on
two sockets `b1`, `b2` while Alice is live on `s1`. -/
def liveBobState : ServerState :=
  { users := [aliceRow, ⟨"B", "Bob", "pic0", "e", false, false, 0⟩],
    messages := [], dmMessages := [], nextMsgId := 1, nextDmId := 1,
    connectedUsers :=
      [("s1", aliceSession), ("b1", ⟨"B", "Bob", "pic0", false⟩),
       ("b2", ⟨"B", "Bob", "pic0", false⟩)],
    rooms := [("b1", ["room_lounge"])] }

/-- A 501-character input whose trimmed form has only 5 characters. -/
def longText : String := ⟨List.replicate 496 ' ' ++ "hello".data⟩

/-! ### Helper lemmas about the association-list and table primitives -/

theorem find?_filter_ne {α : Type} (l : List (String × α)) (k : String) :
    (l.filter (fun p => p.1 != k)).find? (fun p => p.1 == k) = none := by
  rw [List.find?_eq_none]
  intro x hx
  have hne := (List.mem_filter.mp hx).2
  simp only [bne_iff_ne, ne_eq] at hne
  simp [hne]

theorem getAssoc_setAssoc_self {α : Type} (l : List (String × α)) (k : String)
    (v : α) : getAssoc (setAssoc l k v) k = some v := by
  unfold getAssoc setAssoc
  rw [List.find?_append, find?_filter_ne]
  simp

theorem setAssoc_setAssoc {α : Type} (l : List (String × α)) (k : String)
    (v w : α) : setAssoc (setAssoc l k v) k w = setAssoc l k w := by
  unfold setAssoc
  rw [List.filter_append]
  simp

theorem mem_setAssoc {α : Type} {l : List (String × α)} {k : String} {v : α}
    {q : String × α} (h : q ∈ setAssoc l k v) : q = (k, v) ∨ q ∈ l := by
  rcases List.mem_append.mp h with h1 | h2
  · exact Or.inr (List.mem_filter.mp h1).1
  · exact Or.inl (by simpa using h2)

theorem joinChannel_leaveAll (rs : List (String × List String)) (sid ch : String) :
    joinChannel (leaveAllChannels rs sid) sid ch = setAssoc rs sid [ch] := by
  unfold joinChannel leaveAllChannels
  rw [getAssoc_setAssoc_self, setAssoc_setAssoc]
  rfl

theorem findUserL_updateUser (users : List UserRow) (uid t : String)
    (f : UserRow → UserRow) (hf : ∀ w, (f w).id = w.id) :
    findUserL (updateUser users uid f) t =
      (findUserL users t).map (fun u => if u.id == uid then f u else u) := by
  induction users with
  | nil => rfl
  | cons u us ih =>
    have hid : (if (u.id == uid) = true then f u else u).id = u.id := by
      by_cases hu : (u.id == uid) = true
      · rw [if_pos hu, hf]
      · rw [if_neg hu]
    unfold findUserL updateUser at ih ⊢
    rw [List.map_cons, List.find?_cons, List.find?_cons, hid]
    cases hbt : u.id == t
    · exact ih
    · rfl

theorem findUserL_updateUser_ne (users : List UserRow) (uid t : String)
    (hne : t ≠ uid) (f : UserRow → UserRow) (hf : ∀ w, (f w).id = w.id) :
    findUserL (updateUser users uid f) t = findUserL users t := by
  rw [findUserL_updateUser users uid t f hf]
  cases h : findUserL users t with
  | none => rfl
  | some u =>
    have hid : u.id = t := by simpa using List.find?_some h
    have hcond : ¬ ((u.id == uid) = true) := by simp [hid, hne]
    show some (if (u.id == uid) = true then f u else u) = some u
    rw [if_neg hcond]

theorem banned_after_update (users : List UserRow) (t uid : String)
    (f : UserRow → UserRow) (hf_id : ∀ w, (f w).id = w.id)
    (hf_ban : ∀ w, w.isBanned = true → (f w).isBanned = true)
    (u : UserRow) (h : findUserL users t = some u) (hb : u.isBanned = true) :
    ∃ u2, findUserL (updateUser users uid f) t = some u2 ∧ u2.isBanned = true := by
  rw [findUserL_updateUser users uid t f hf_id, h]
  by_cases hc : (u.id == uid) = true
  · refine ⟨f u, ?_, hf_ban u hb⟩
    show some (if (u.id == uid) = true then f u else u) = some (f u)
    rw [if_pos hc]
  · refine ⟨u, ?_, hb⟩
    show some (if (u.id == uid) = true then f u else u) = some u
    rw [if_neg hc]

theorem banned_after_append (users : List UserRow) (t : String) (row : UserRow)
    (u : UserRow) (h : findUserL users t = some u) (hb : u.isBanned = true) :
    ∃ u2, findUserL (users ++ [row]) t = some u2 ∧ u2.isBanned = true := by
  refine ⟨u, ?_, hb⟩
  unfold findUserL at h ⊢
  rw [List.find?_append, h]
  rfl

theorem trimChars_length_le (l : List Char) : (trimChars l).length ≤ l.length := by
  unfold trimChars
  rw [List.length_reverse]
  refine le_trans (List.dropWhile_sublist _).length_le ?_
  rw [List.length_reverse]
  exact (List.dropWhile_sublist _).length_le

theorem jsTrim_length_le (s : String) : (jsTrim s).length ≤ s.length :=
  trimChars_length_le s.data

/-! ### Frame lemmas: which parts of the state each handler leaves alone -/

theorem socketAuth_rooms (st : ServerState) (sid : String) (d : Option String)
    (now : Nat) : (socketAuth st sid d now).1.rooms = st.rooms := by
  unfold socketAuth
  split
  · rfl
  · split
    · rfl
    · split <;> rfl

theorem joinRoom_rooms (st : ServerState) (sid roomId : String) :
    (joinRoom st sid roomId).1.rooms = setAssoc st.rooms sid ["room_" ++ roomId] := by
  unfold joinRoom
  rw [joinChannel_leaveAll]

theorem joinRoom_users (st : ServerState) (sid roomId : String) :
    (joinRoom st sid roomId).1.users = st.users := rfl

theorem joinRoom_connected (st : ServerState) (sid roomId : String) :
    (joinRoom st sid roomId).1.connectedUsers = st.connectedUsers := rfl

theorem joinDm_rooms (st : ServerState) (sid chatId : String) :
    (joinDm st sid chatId).1.rooms = st.rooms ∨
    (joinDm st sid chatId).1.rooms = setAssoc st.rooms sid ["dm_" ++ chatId] := by
  unfold joinDm
  split
  · exact Or.inl rfl
  · split
    · exact Or.inr (joinChannel_leaveAll st.rooms sid _)
    · exact Or.inl rfl

theorem joinDm_users (st : ServerState) (sid chatId : String) :
    (joinDm st sid chatId).1.users = st.users := by
  unfold joinDm
  split
  · rfl
  · split <;> rfl

theorem sendMessage_rooms (st : ServerState) (sid roomId text : String)
    (dbOk : Bool) (now : Nat) :
    (sendMessage st sid roomId text dbOk now).1.rooms = st.rooms := by
  unfold sendMessage
  split
  · rfl
  · split
    · rfl
    · split <;> rfl

theorem sendMessage_users (st : ServerState) (sid roomId text : String)
    (dbOk : Bool) (now : Nat) :
    (sendMessage st sid roomId text dbOk now).1.users = st.users := by
  unfold sendMessage
  split
  · rfl
  · split
    · rfl
    · split <;> rfl

theorem sendDm_rooms (st : ServerState) (sid chatId text : String)
    (dbOk : Bool) (now : Nat) :
    (sendDm st sid chatId text dbOk now).1.rooms = st.rooms := by
  unfold sendDm
  split
  · rfl
  · split
    · rfl
    · split
      · split <;> rfl
      · rfl

theorem sendDm_users (st : ServerState) (sid chatId text : String)
    (dbOk : Bool) (now : Nat) :
    (sendDm st sid chatId text dbOk now).1.users = st.users := by
  unfold sendDm
  split
  · rfl
  · split
    · rfl
    · split
      · split <;> rfl
      · rfl

theorem disconnectSocket_rooms (st : ServerState) (sid : String) (now : Nat) :
    (disconnectSocket st sid now).1.rooms = delAssoc st.rooms sid := by
  unfold disconnectSocket
  split <;> rfl

theorem authGoogle_rooms (st : ServerState) (g : Option GUser) (now : Nat) :
    (authGoogle st g now).1.rooms = st.rooms := by
  unfold authGoogle
  split
  · rfl
  · split
    · rfl
    · dsimp only
      split <;> rfl

theorem adminBan_rooms (st : ServerState) (uid : String) :
    ∃ f, (adminBan st uid).1.rooms = st.rooms.filter f := by
  exact ⟨_, rfl⟩

theorem adminDeleteMessage_rooms (st : ServerState) (msgId : Nat) :
    (adminDeleteMessage st msgId).1.rooms = st.rooms := by
  unfold adminDeleteMessage
  split <;> rfl

theorem adminDeleteMessage_users (st : ServerState) (msgId : Nat) :
    (adminDeleteMessage st msgId).1.users = st.users := by
  unfold adminDeleteMessage
  split <;> rfl

theorem setNameEndpoint_rooms (st : ServerState) (uid name : String) :
    (setNameEndpoint st uid name).1.rooms = st.rooms := by
  unfold setNameEndpoint
  split <;> rfl

theorem setPhotoEndpoint_rooms (st : ServerState) (uid photo : String) :
    (setPhotoEndpoint st uid photo).1.rooms = st.rooms := by
  unfold setPhotoEndpoint
  split <;> rfl

theorem roomsOf_joinRoom (st : ServerState) (sid roomId : String) :
    roomsOf (joinRoom st sid roomId).1 sid = ["room_" ++ roomId] := by
  unfold roomsOf
  rw [joinRoom_rooms, getAssoc_setAssoc_self]
  rfl

theorem atMostOne_setAssoc (rs : List (String × List String)) (sid : String)
    (v : List String) (hv : v.length ≤ 1) (h : ∀ p ∈ rs, p.2.length ≤ 1) :
    ∀ p ∈ setAssoc rs sid v, p.2.length ≤ 1 := by
  intro p hp
  rcases mem_setAssoc hp with h1 | h2
  · rw [h1]
    exact hv
  · exact h p h2

theorem atMostOne_filter (rs : List (String × List String))
    (f : String × List String → Bool) (h : ∀ p ∈ rs, p.2.length ≤ 1) :
    ∀ p ∈ rs.filter f, p.2.length ≤ 1 :=
  fun p hp => h p (List.mem_filter.mp hp).1

/-! ### Claim C1 — history endpoints -/

/-- C1: the claim says the two message-history endpoints return the last 80
messages of a channel (the 80 most recently created), ascending by creation
time.  On a room and a direct chat each holding 81 messages with timestamps
`1..81`, the query the code issues (`ORDER BY m.created_at ASC LIMIT 80`)
returns 80 rows but omits the newest message (id 81, the maximal timestamp)
from both endpoints: it returns the oldest 80, contradicting the claim (and
the route's own `últimos 80` comment). -/
theorem C1_history_returns_oldest_80 :
    ((⟨81, "lounge", "A", "hi", 81⟩ : Message) ∈ fullHistoryState.messages) ∧
    (∀ m ∈ fullHistoryState.messages, m.createdAt ≤ 81) ∧
    (roomMessagesEndpoint fullHistoryState "lounge").length = 80 ∧
    ((⟨81, "lounge", "A", "hi", 81⟩ : Message) ∉
      roomMessagesEndpoint fullHistoryState "lounge") ∧
    ((⟨81, "A_B", "A", "yo", 81⟩ : Message) ∈ fullHistoryState.dmMessages) ∧
    ((dmMessagesEndpoint fullHistoryState "A" "A_B").getD []).length = 80 ∧
    ((⟨81, "A_B", "A", "yo", 81⟩ : Message) ∉
      (dmMessagesEndpoint fullHistoryState "A" "A_B").getD []) := by
  decide

/-! ### Claim C2 — silent-drop conditions for sends -/

/-- C2 (counterexample): Alice is authenticated on socket `s1` but is a member
of no channel, in particular not of room `lounge`; contrary to the claim, her
send to `lounge` is not dropped: the message is persisted and broadcast. -/
theorem C2_counterexample :
    membersOf aliceState "room_lounge" = [] ∧
    roomsOf aliceState "s1" = [] ∧
    (sendMessage aliceState "s1" "lounge" "hello" true 7).1.messages =
      [⟨1, "lounge", "A", "hello", 7⟩] ∧
    (sendMessage aliceState "s1" "lounge" "hello" true 7).2 =
      [Output.broadcast "room_lounge" "new_message"
        ⟨1, "lounge", "A", "Alice", "", false, "hello", 7⟩] := by
  decide

/-- C2 (amended): a send over the socket is a silent no-op — state unchanged
and nothing emitted, not even to the sender — exactly when the sender has no
registered session, or the text is empty after trimming, or the untrimmed
text exceeds 500 characters; for direct sends additionally when the sender's
uid is not among the underscore-separated components of the chat id.  Room
sends have no membership check at all. -/
theorem C2_amended_silent_drop :
    (∀ st sid roomId text dbOk now,
      sendMessage st sid roomId text dbOk now = (st, []) ↔
        (getAssoc st.connectedUsers sid = none ∨ jsTrim text = "" ∨
          text.length > 500)) ∧
    (∀ st sid chatId text dbOk now,
      sendDm st sid chatId text dbOk now = (st, []) ↔
        (getAssoc st.connectedUsers sid = none ∨ jsTrim text = "" ∨
          text.length > 500 ∨
          (∃ user, getAssoc st.connectedUsers sid = some user ∧
            ((splitUnderscore chatId).contains user.uid) = false))) := by
  constructor
  · intro st sid roomId text dbOk now
    constructor
    · intro h
      cases hlk : getAssoc st.connectedUsers sid with
      | none => exact Or.inl rfl
      | some user =>
        by_cases hv : text = "" ∨ jsTrim text = "" ∨ text.length > 500
        · rcases hv with h1 | h2 | h3
          · exact Or.inr (Or.inl (by rw [h1]; rfl))
          · exact Or.inr (Or.inl h2)
          · exact Or.inr (Or.inr h3)
        · exfalso
          cases dbOk <;> simp [sendMessage, hlk, hv] at h
    · intro h
      rcases h with h | h | h
      · simp [sendMessage, h]
      · cases hlk : getAssoc st.connectedUsers sid with
        | none => simp [sendMessage, hlk]
        | some user => simp [sendMessage, hlk, h]
      · cases hlk : getAssoc st.connectedUsers sid with
        | none => simp [sendMessage, hlk]
        | some user => simp [sendMessage, hlk, h]
  · intro st sid chatId text dbOk now
    constructor
    · intro h
      cases hlk : getAssoc st.connectedUsers sid with
      | none => exact Or.inl rfl
      | some user =>
        by_cases hv : text = "" ∨ jsTrim text = "" ∨ text.length > 500
        · rcases hv with h1 | h2 | h3
          · exact Or.inr (Or.inl (by rw [h1]; rfl))
          · exact Or.inr (Or.inl h2)
          · exact Or.inr (Or.inr (Or.inl h3))
        · cases hc : ((splitUnderscore chatId).contains user.uid) with
          | false => exact Or.inr (Or.inr (Or.inr ⟨user, rfl, hc⟩))
          | true =>
            exfalso
            have hmem : user.uid ∈ splitUnderscore chatId := by simpa using hc
            cases dbOk <;> simp [sendDm, hlk, hv, hmem] at h
    · intro h
      rcases h with h | h | h | ⟨user, hu, hc⟩
      · simp [sendDm, h]
      · cases hlk : getAssoc st.connectedUsers sid with
        | none => simp [sendDm, hlk]
        | some user => simp [sendDm, hlk, h]
      · cases hlk : getAssoc st.connectedUsers sid with
        | none => simp [sendDm, hlk]
        | some user => simp [sendDm, hlk, h]
      · by_cases hv : text = "" ∨ jsTrim text = "" ∨ text.length > 500
        · simp [sendDm, hu, hv]
        · have hnmem : user.uid ∉ splitUnderscore chatId := by simpa using hc
          simp [sendDm, hu, hv, hnmem]

/-! ### Claim C3 — joinDirect authorization -/

/-- C3 (counterexample): the claim requires the channel name to decompose
into exactly two identity ids.  The code never checks the arity: chat id
`"A"` decomposes into the single component `["A"]`, yet Alice's `join_dm`
on it succeeds and moves her socket into channel `dm_A`. -/
theorem C3_counterexample :
    (splitUnderscore "A").length = 1 ∧
    ¬ joinDirectSpecOk "A" "A" ∧
    roomsOf aliceState "s1" = [] ∧
    roomsOf (joinDm aliceState "s1" "A").1 "s1" = ["dm_A"] := by
  decide

/-- C3 (amended): `join_dm` succeeds — the caller's membership becomes exactly
the requested direct channel — if and only if the caller has a registered
session and the session's uid is among the underscore-separated components of
the channel name (there is no check that there are exactly two components);
in every other case the call is a silent no-op: state unchanged, nothing
emitted. -/
theorem C3_amended_join_dm :
    (∀ st sid chatId user, getAssoc st.connectedUsers sid = some user →
      ((splitUnderscore chatId).contains user.uid) = true →
      roomsOf (joinDm st sid chatId).1 sid = ["dm_" ++ chatId] ∧
      (joinDm st sid chatId).2 = []) ∧
    (∀ st sid chatId,
      (¬ ∃ user, getAssoc st.connectedUsers sid = some user ∧
        ((splitUnderscore chatId).contains user.uid) = true) →
      joinDm st sid chatId = (st, [])) := by
  constructor
  · intro st sid chatId user h hc
    have hmem : user.uid ∈ splitUnderscore chatId := by simpa using hc
    constructor
    · unfold roomsOf
      simp only [joinDm, h, hc, if_true]
      rw [joinChannel_leaveAll, getAssoc_setAssoc_self]
      rfl
    · simp [joinDm, h, hmem]
  · intro st sid chatId h
    cases hlk : getAssoc st.connectedUsers sid with
    | none => simp [joinDm, hlk]
    | some user =>
      cases hc : ((splitUnderscore chatId).contains user.uid) with
      | false =>
        have hnmem : user.uid ∉ splitUnderscore chatId := by simpa using hc
        simp [joinDm, hlk, hnmem]
      | true => exact absurd ⟨user, hlk, hc⟩ h

/-- C3 (witness): Alice joins direct channel `A_B` from socket `s1`,
successfully and silently. -/
theorem C3_amended_join_dm_witness :
    roomsOf (joinDm aliceState "s1" "A_B").1 "s1" = ["dm_A_B"] ∧
    (joinDm aliceState "s1" "A_B").2 = [] :=
  C3_amended_join_dm.1 aliceState "s1" "A_B" aliceSession (by decide) (by decide)

/-! ### Claim C6 — login exchange on rejection -/

/-- C6 (counterexample): Bob is banned; his login with a valid Google token is
rejected with a structured 403 error, but contrary to the claim the exchange
has already upserted his row: `last_seen` is bumped to the request time and
`photo` is overwritten, so the stored row changed. -/
theorem C6_counterexample :
    (authGoogle bannedBobState (some ⟨"B", "Bob", "pic1", "e"⟩) 9).2 =
      AuthGoogleResult.error 403 "Tu cuenta ha sido baneada de Therians." ∧
    (authGoogle bannedBobState (some ⟨"B", "Bob", "pic1", "e"⟩) 9).1.users =
      [⟨"B", "Bob", "pic1", "e", false, true, 9⟩] ∧
    bannedBobState.users ≠
      (authGoogle bannedBobState (some ⟨"B", "Bob", "pic1", "e"⟩) 9).1.users := by
  decide

/-- C6 (amended): the login exchange surfaces structured errors (401 on a bad
token — with no state change — and 403 for a banned caller), but the banned
rejection happens only after the upsert: the banned user's stored row is
still written (`last_seen := now`, `photo := picture`), so the rejection is
not free of side effects on the stored row. -/
theorem C6_amended_login_banned_writes :
    (∀ st now, authGoogle st none now =
      (st, AuthGoogleResult.error 401 "Token invalido")) ∧
    (∀ st gu u now, findUser st gu.sub = some u → u.isBanned = true →
      (authGoogle st (some gu) now).2 =
        AuthGoogleResult.error 403 "Tu cuenta ha sido baneada de Therians." ∧
      findUser (authGoogle st (some gu) now).1 gu.sub =
        some { u with lastSeen := now, photo := gu.picture }) := by
  constructor
  · intro st now
    rfl
  · intro st gu u now h hb
    have hid : u.id = gu.sub := by simpa using List.find?_some h
    constructor
    · simp only [authGoogle, h]
      dsimp only
      rw [if_pos]
      exact hb
    · simp only [authGoogle, h]
      dsimp only
      rw [if_pos hb]
      show findUserL (updateUser st.users gu.sub
        (fun w => { w with lastSeen := now, photo := gu.picture })) gu.sub = _
      have hL : findUserL st.users gu.sub = some u := h
      rw [findUserL_updateUser st.users gu.sub gu.sub
        (fun w => { w with lastSeen := now, photo := gu.picture }) (fun w => rfl), hL]
      show some (if (u.id == gu.sub) = true then _ else u) = _
      rw [if_pos (by simp [hid])]

/-- C6 (witness): the amended statement applied to banned Bob's concrete
login attempt. -/
theorem C6_amended_login_banned_writes_witness :
    (authGoogle bannedBobState (some ⟨"B", "Bob", "pic1", "e"⟩) 9).2 =
      AuthGoogleResult.error 403 "Tu cuenta ha sido baneada de Therians." ∧
    findUser (authGoogle bannedBobState (some ⟨"B", "Bob", "pic1", "e"⟩) 9).1 "B" =
      some ⟨"B", "Bob", "pic1", "e", false, true, 9⟩ :=
  C6_amended_login_banned_writes.2 bannedBobState ⟨"B", "Bob", "pic1", "e"⟩
    ⟨"B", "Bob", "pic0", "e", false, true, 0⟩ 9 (by decide) (by decide)

/-! ### Claim C5 — persist before broadcast -/

/-- C5: a chat message is broadcast only after its persistence write is
acknowledged: any broadcast among a send's outputs implies the insert
succeeded and the broadcast row (same id, timestamp, text) is present in the
post-state store; and when the insert of a validated send fails, the state is
unchanged and the only output is a `message_error` event to the sender —
nothing is broadcast to any member. -/
theorem C5_broadcast_after_persist :
    (∀ st sid roomId text now user,
      getAssoc st.connectedUsers sid = some user →
      ¬(text = "" ∨ jsTrim text = "" ∨ text.length > 500) →
      sendMessage st sid roomId text false now =
        (st, [Output.emit sid "message_error" "storage error"])) ∧
    (∀ st sid chatId text now user,
      getAssoc st.connectedUsers sid = some user →
      ¬(text = "" ∨ jsTrim text = "" ∨ text.length > 500) →
      user.uid ∈ splitUnderscore chatId →
      sendDm st sid chatId text false now =
        (st, [Output.emit sid "message_error" "storage error"])) ∧
    (∀ st sid roomId text dbOk now ch ev w,
      Output.broadcast ch ev w ∈ (sendMessage st sid roomId text dbOk now).2 →
      dbOk = true ∧ ∃ m ∈ (sendMessage st sid roomId text dbOk now).1.messages,
        m.id = w.id ∧ m.createdAt = w.createdAt ∧ m.text = w.text) ∧
    (∀ st sid chatId text dbOk now ch ev w,
      Output.broadcast ch ev w ∈ (sendDm st sid chatId text dbOk now).2 →
      dbOk = true ∧ ∃ m ∈ (sendDm st sid chatId text dbOk now).1.dmMessages,
        m.id = w.id ∧ m.createdAt = w.createdAt ∧ m.text = w.text) := by
  refine ⟨?_, ?_, ?_, ?_⟩
  · intro st sid roomId text now user h hv
    simp [sendMessage, h, hv]
  · intro st sid chatId text now user h hv hmem
    simp [sendDm, h, hv, hmem]
  · intro st sid roomId text dbOk now ch ev w hmem
    cases hlk : getAssoc st.connectedUsers sid with
    | none => simp [sendMessage, hlk] at hmem
    | some user =>
      by_cases hv : text = "" ∨ jsTrim text = "" ∨ text.length > 500
      · simp [sendMessage, hlk, hv] at hmem
      · cases dbOk with
        | false => simp [sendMessage, hlk, hv] at hmem
        | true =>
          simp only [sendMessage, hlk, hv, if_false, if_true, ite_false, ite_true,
            List.mem_singleton] at hmem
          refine ⟨rfl, ⟨st.nextMsgId, roomId, user.uid, jsTrim text, now⟩, ?_, ?_⟩
          · simp [sendMessage, hlk, hv]
          · obtain ⟨hch, hev, hw⟩ := by simpa using hmem
            subst hw
            exact ⟨rfl, rfl, rfl⟩
  · intro st sid chatId text dbOk now ch ev w hmem
    cases hlk : getAssoc st.connectedUsers sid with
    | none => simp [sendDm, hlk] at hmem
    | some user =>
      by_cases hv : text = "" ∨ jsTrim text = "" ∨ text.length > 500
      · simp [sendDm, hlk, hv] at hmem
      · cases hc : ((splitUnderscore chatId).contains user.uid) with
        | false =>
          have hnmem : user.uid ∉ splitUnderscore chatId := by simpa using hc
          simp [sendDm, hlk, hv, hnmem] at hmem
        | true =>
          have hcm : user.uid ∈ splitUnderscore chatId := by simpa using hc
          cases dbOk with
          | false => simp [sendDm, hlk, hv, hcm] at hmem
          | true =>
            simp only [sendDm, hlk, hv, if_false, if_true, ite_false, ite_true,
              List.mem_singleton] at hmem
            refine ⟨rfl, ⟨st.nextDmId, chatId, user.uid, jsTrim text, now⟩, ?_, ?_⟩
            · simp [sendDm, hlk, hv, hcm]
            · obtain ⟨hch, hev, hw⟩ := by simpa [hcm] using hmem
              subst hw
              exact ⟨rfl, rfl, rfl⟩

/-- C5 (witness): Alice's validated room send whose insert fails changes
nothing and emits `message_error` to her socket only. -/
theorem C5_broadcast_after_persist_witness :
    sendMessage aliceState "s1" "lounge" "hello" false 7 =
      (aliceState, [Output.emit "s1" "message_error" "storage error"]) :=
  C5_broadcast_after_persist.1 aliceState "s1" "lounge" "hello" 7 aliceSession
    (by decide) (by decide)

/-! ### Claim C7 — broadcast carries the persisted id and timestamp -/

/-- C7: for every valid send the broadcast payload's id and timestamp are
exactly the values of the row returned by the persistence write — the
server-assigned serial and the server clock — for every client-supplied text
and channel id; the client's input carries no id or timestamp at all, so
these values are never client-supplied. -/
theorem C7_broadcast_ids_from_store :
    (∀ st sid roomId text now user,
      getAssoc st.connectedUsers sid = some user →
      ¬(text = "" ∨ jsTrim text = "" ∨ text.length > 500) →
      (sendMessage st sid roomId text true now).1.messages =
        st.messages ++ [⟨st.nextMsgId, roomId, user.uid, jsTrim text, now⟩] ∧
      (sendMessage st sid roomId text true now).2 =
        [Output.broadcast ("room_" ++ roomId) "new_message"
          ⟨st.nextMsgId, roomId, user.uid, user.name, user.photo, user.premium,
           jsTrim text, now⟩]) ∧
    (∀ st sid chatId text now user,
      getAssoc st.connectedUsers sid = some user →
      ¬(text = "" ∨ jsTrim text = "" ∨ text.length > 500) →
      user.uid ∈ splitUnderscore chatId →
      (sendDm st sid chatId text true now).1.dmMessages =
        st.dmMessages ++ [⟨st.nextDmId, chatId, user.uid, jsTrim text, now⟩] ∧
      (sendDm st sid chatId text true now).2 =
        [Output.broadcast ("dm_" ++ chatId) "new_dm"
          ⟨st.nextDmId, chatId, user.uid, user.name, user.photo, user.premium,
           jsTrim text, now⟩]) := by
  constructor
  · intro st sid roomId text now user h hv
    constructor <;> simp [sendMessage, h, hv]
  · intro st sid chatId text now user h hv hmem
    constructor <;> simp [sendDm, h, hv, hmem]

/-- C7 (witness): Alice's concrete send of `" hi there "` to room `lounge`
at time 7 persists and broadcasts id 1 (the serial) and timestamp 7 (the
clock), not anything from her input. -/
theorem C7_broadcast_ids_from_store_witness :
    (sendMessage aliceState "s1" "lounge" " hi there " true 7).1.messages =
      aliceState.messages ++ [⟨1, "lounge", "A", "hi there", 7⟩] ∧
    (sendMessage aliceState "s1" "lounge" " hi there " true 7).2 =
      [Output.broadcast "room_lounge" "new_message"
        ⟨1, "lounge", "A", "Alice", "", false, "hi there", 7⟩] :=
  C7_broadcast_ids_from_store.1 aliceState "s1" "lounge" " hi there " 7
    aliceSession (by decide) (by decide)

/-! ### Claim C10 — persisted text is trimmed, non-empty, bounded -/

/-- C10: every newly persisted message text is the trimmed form of the
client's input, is non-empty, and has at most 500 characters; and the
500-character limit is checked on the untrimmed input, so any input longer
than 500 characters is silently dropped — even when its trimmed form would
fit (witness: 501 characters trimming to 5). -/
theorem C10_persisted_text_trimmed_bounded :
    (∀ st sid roomId text dbOk now m,
      m ∈ (sendMessage st sid roomId text dbOk now).1.messages →
      m ∉ st.messages →
      m.text = jsTrim text ∧ m.text ≠ "" ∧ m.text.length ≤ 500) ∧
    (∀ st sid chatId text dbOk now m,
      m ∈ (sendDm st sid chatId text dbOk now).1.dmMessages →
      m ∉ st.dmMessages →
      m.text = jsTrim text ∧ m.text ≠ "" ∧ m.text.length ≤ 500) ∧
    (∀ st sid roomId text dbOk now, text.length > 500 →
      sendMessage st sid roomId text dbOk now = (st, [])) ∧
    (∀ st sid chatId text dbOk now, text.length > 500 →
      sendDm st sid chatId text dbOk now = (st, [])) := by
  refine ⟨?_, ?_, ?_, ?_⟩
  · intro st sid roomId text dbOk now m hm hnot
    cases hlk : getAssoc st.connectedUsers sid with
    | none => rw [show (sendMessage st sid roomId text dbOk now) = (st, []) by
        simp [sendMessage, hlk]] at hm; exact absurd hm hnot
    | some user =>
      by_cases hv : text = "" ∨ jsTrim text = "" ∨ text.length > 500
      · rw [show (sendMessage st sid roomId text dbOk now) = (st, []) by
          simp [sendMessage, hlk, hv]] at hm
        exact absurd hm hnot
      · push_neg at hv
        obtain ⟨h1, h2, h3⟩ := hv
        have h4 : ¬ (500 < text.length) := by omega
        cases dbOk with
        | false =>
          have : (sendMessage st sid roomId text false now).1.messages = st.messages := by
            simp [sendMessage, hlk, h1, h2, h4]
          rw [this] at hm
          exact absurd hm hnot
        | true =>
          have : (sendMessage st sid roomId text true now).1.messages =
              st.messages ++ [⟨st.nextMsgId, roomId, user.uid, jsTrim text, now⟩] := by
            simp [sendMessage, hlk, h1, h2, h4]
          rw [this] at hm
          rcases List.mem_append.mp hm with hin | hin
          · exact absurd hin hnot
          · have hmrow := List.mem_singleton.mp hin
            rw [hmrow]
            exact ⟨rfl, h2, le_trans (jsTrim_length_le text) h3⟩
  · intro st sid chatId text dbOk now m hm hnot
    cases hlk : getAssoc st.connectedUsers sid with
    | none => rw [show (sendDm st sid chatId text dbOk now) = (st, []) by
        simp [sendDm, hlk]] at hm; exact absurd hm hnot
    | some user =>
      by_cases hv : text = "" ∨ jsTrim text = "" ∨ text.length > 500
      · rw [show (sendDm st sid chatId text dbOk now) = (st, []) by
          simp [sendDm, hlk, hv]] at hm
        exact absurd hm hnot
      · push_neg at hv
        obtain ⟨h1, h2, h3⟩ := hv
        have h4 : ¬ (500 < text.length) := by omega
        cases hc : ((splitUnderscore chatId).contains user.uid) with
        | false =>
          have hnmem : user.uid ∉ splitUnderscore chatId := by simpa using hc
          have : (sendDm st sid chatId text dbOk now).1.dmMessages = st.dmMessages := by
            simp [sendDm, hlk, h1, h2, h4, hnmem]
          rw [this] at hm
          exact absurd hm hnot
        | true =>
          have hcm : user.uid ∈ splitUnderscore chatId := by simpa using hc
          cases dbOk with
          | false =>
            have : (sendDm st sid chatId text false now).1.dmMessages = st.dmMessages := by
              simp [sendDm, hlk, h1, h2, h4, hcm]
            rw [this] at hm
            exact absurd hm hnot
          | true =>
            have : (sendDm st sid chatId text true now).1.dmMessages =
                st.dmMessages ++ [⟨st.nextDmId, chatId, user.uid, jsTrim text, now⟩] := by
              simp [sendDm, hlk, h1, h2, h4, hcm]
            rw [this] at hm
            rcases List.mem_append.mp hm with hin | hin
            · exact absurd hin hnot
            · have hmrow := List.mem_singleton.mp hin
              rw [hmrow]
              exact ⟨rfl, h2, le_trans (jsTrim_length_le text) h3⟩
  · intro st sid roomId text dbOk now h500
    cases hlk : getAssoc st.connectedUsers sid with
    | none => simp [sendMessage, hlk]
    | some user => simp [sendMessage, hlk, h500]
  · intro st sid chatId text dbOk now h500
    cases hlk : getAssoc st.connectedUsers sid with
    | none => simp [sendDm, hlk]
    | some user => simp [sendDm, hlk, h500]

set_option maxRecDepth 8000 in
/-- C10 (witness): the 501-character `longText` trims to 5 characters yet is
dropped; and the persisted row for input `"  hi  "` carries its trimmed,
non-empty, in-bounds text. -/
theorem C10_persisted_text_trimmed_bounded_witness :
    longText.length = 501 ∧ (jsTrim longText).length = 5 ∧
    sendMessage aliceState "s1" "lounge" longText true 7 = (aliceState, []) ∧
    ((⟨1, "lounge", "A", "hi", 7⟩ : Message).text = jsTrim "  hi  " ∧
      (⟨1, "lounge", "A", "hi", 7⟩ : Message).text ≠ "" ∧
      (⟨1, "lounge", "A", "hi", 7⟩ : Message).text.length ≤ 500) :=
  ⟨by decide, by decide,
    C10_persisted_text_trimmed_bounded.2.2.1 aliceState "s1" "lounge" longText true 7
      (by decide),
    C10_persisted_text_trimmed_bounded.1 aliceState "s1" "lounge" "  hi  " true 7
      ⟨1, "lounge", "A", "hi", 7⟩ (by decide) (by decide)⟩

/-! ### Characterization lemmas for the users table across operations -/

theorem socketAuth_users (st : ServerState) (sid : String) (d : Option String)
    (now : Nat) :
    (socketAuth st sid d now).1.users = st.users ∨
    ∃ uid, (socketAuth st sid d now).1.users =
      updateUser st.users uid (fun v => { v with lastSeen := now }) := by
  unfold socketAuth
  split
  · exact Or.inl rfl
  · split
    · exact Or.inl rfl
    · split
      · exact Or.inl rfl
      · exact Or.inr ⟨_, rfl⟩

theorem disconnectSocket_users (st : ServerState) (sid : String) (now : Nat) :
    (disconnectSocket st sid now).1.users = st.users ∨
    ∃ uid, (disconnectSocket st sid now).1.users =
      updateUser st.users uid (fun v => { v with lastSeen := now }) := by
  unfold disconnectSocket
  split
  · exact Or.inl rfl
  · exact Or.inr ⟨_, rfl⟩

theorem authGoogle_users (st : ServerState) (g : Option GUser) (now : Nat) :
    (authGoogle st g now).1.users = st.users ∨
    (∃ row, (authGoogle st g now).1.users = st.users ++ [row]) ∨
    (∃ uid f, (∀ w, (f w).id = w.id) ∧ (∀ w, (f w).isBanned = w.isBanned) ∧
      (authGoogle st g now).1.users = updateUser st.users uid f) := by
  cases g with
  | none => exact Or.inl rfl
  | some gu =>
    cases hfu : findUser st gu.sub with
    | none =>
      refine Or.inr (Or.inl ⟨⟨gu.sub,
        (if gu.name = "" then "Anonymous Therian" else gu.name),
        gu.picture, gu.email, false, false, now⟩, ?_⟩)
      simp only [authGoogle, hfu]
    | some u =>
      refine Or.inr (Or.inr ⟨gu.sub,
        fun w => { w with lastSeen := now, photo := gu.picture },
        fun w => rfl, fun w => rfl, ?_⟩)
      simp only [authGoogle, hfu]
      dsimp only
      split <;> rfl

theorem setNameEndpoint_users (st : ServerState) (uid name : String) :
    (setNameEndpoint st uid name).1.users = st.users ∨
    (setNameEndpoint st uid name).1.users =
      updateUser st.users uid (fun w => { w with name := name }) := by
  unfold setNameEndpoint
  split
  · exact Or.inl rfl
  · exact Or.inr rfl

theorem setPhotoEndpoint_users (st : ServerState) (uid photo : String) :
    (setPhotoEndpoint st uid photo).1.users = st.users ∨
    (setPhotoEndpoint st uid photo).1.users =
      updateUser st.users uid (fun w => { w with photo := photo }) := by
  unfold setPhotoEndpoint
  split
  · exact Or.inl rfl
  · exact Or.inr rfl

theorem banned_exists_of_eq {users users2 : List UserRow} {t : String}
    (he : users2 = users)
    (h : ∃ u, findUserL users t = some u ∧ u.isBanned = true) :
    ∃ u, findUserL users2 t = some u ∧ u.isBanned = true := by
  rw [he]
  exact h

theorem atMostOne_of_rooms_eq {st st2 : ServerState} (hr : st2.rooms = st.rooms)
    (h : atMostOneChannel st) : atMostOneChannel st2 := by
  unfold atMostOneChannel at h ⊢
  rw [hr]
  exact h

/-! ### Claim C4 — ban semantics -/

/-- C4: the admin ban (1) sends a `banned` notice to every live session of
the target identity and forcibly disconnects it, (2) leaves no session of the
target in the registry, (3) flags the target's stored row as banned; while
the flag is set, (4) socket authentication with the target's token emits only
`banned` and registers nothing, and (5) the HTTP login exchange answers 403
and issues no token; finally (6) the flag survives every operation of the
core other than an unban of the target, so the block lasts until unbanned. -/
theorem C4_ban_evicts_and_blocks :
    (∀ st target, ∀ p ∈ st.connectedUsers, p.2.uid = target →
      Output.emit p.1 "banned" "" ∈ (adminBan st target).2 ∧
      Output.disconnectSock p.1 ∈ (adminBan st target).2) ∧
    (∀ st target, ∀ p ∈ (adminBan st target).1.connectedUsers, p.2.uid ≠ target) ∧
    (∀ st target u, findUser st target = some u →
      findUser (adminBan st target).1 target = some { u with isBanned := true }) ∧
    (∀ st target u sid now, findUser st target = some u → u.isBanned = true →
      socketAuth st sid (some target) now = (st, [Output.emit sid "banned" ""])) ∧
    (∀ st target u gu now, findUser st target = some u → u.isBanned = true →
      gu.sub = target →
      (authGoogle st (some gu) now).2 =
        AuthGoogleResult.error 403 "Tu cuenta ha sido baneada de Therians.") ∧
    (∀ st target u op, findUser st target = some u → u.isBanned = true →
      op ≠ Op.unbanOp target →
      ∃ u2, findUser (step st op).1 target = some u2 ∧ u2.isBanned = true) := by
  refine ⟨?_, ?_, ?_, ?_, ?_, ?_⟩
  · intro st target p hp hpu
    have hfil : p ∈ st.connectedUsers.filter (fun q => q.2.uid == target) :=
      List.mem_filter.mpr ⟨hp, by simp [hpu]⟩
    constructor <;>
    · show _ ∈ ((st.connectedUsers.filter (fun q => q.2.uid == target)).map
          (fun q => q.1)).flatMap
          (fun v => [Output.emit v "banned" "", Output.disconnectSock v])
      exact List.mem_flatMap.mpr ⟨p.1, List.mem_map_of_mem _ hfil, by simp⟩
  · intro st target p hp
    have hp2 : p ∈ st.connectedUsers.filter (fun q => q.2.uid != target) := hp
    have := (List.mem_filter.mp hp2).2
    simpa using this
  · intro st target u h
    have hL : findUserL st.users target = some u := h
    have hid : u.id = target := by simpa using List.find?_some hL
    show findUserL (updateUser st.users target
      (fun w => { w with isBanned := true })) target = _
    rw [findUserL_updateUser st.users target target
      (fun w => { w with isBanned := true }) (fun w => rfl), hL]
    show some (if (u.id == target) = true then _ else u) = _
    rw [if_pos (by simp [hid])]
  · intro st target u sid now h hb
    simp only [socketAuth, h]
    rw [if_pos hb]
  · intro st target u gu now h hb hsub
    subst hsub
    simp only [authGoogle, h]
    dsimp only
    rw [if_pos]
    exact hb
  · intro st target u op h hb hne
    have hL : findUserL st.users target = some u := h
    cases op with
    | authOp sid d now =>
      show ∃ u2, findUserL (socketAuth st sid d now).1.users target = some u2 ∧
        u2.isBanned = true
      rcases socketAuth_users st sid d now with he | ⟨uid2, he⟩
      · exact banned_exists_of_eq he ⟨u, hL, hb⟩
      · rw [he]
        exact banned_after_update st.users target uid2 _ (fun w => rfl)
          (fun w hw => hw) u hL hb
    | joinRoomOp sid r =>
      exact ⟨u, hL, hb⟩
    | joinDmOp sid c =>
      show ∃ u2, findUserL (joinDm st sid c).1.users target = some u2 ∧
        u2.isBanned = true
      exact banned_exists_of_eq (joinDm_users st sid c) ⟨u, hL, hb⟩
    | sendMessageOp sid r t ok now =>
      show ∃ u2, findUserL (sendMessage st sid r t ok now).1.users target = some u2 ∧
        u2.isBanned = true
      exact banned_exists_of_eq (sendMessage_users st sid r t ok now) ⟨u, hL, hb⟩
    | sendDmOp sid c t ok now =>
      show ∃ u2, findUserL (sendDm st sid c t ok now).1.users target = some u2 ∧
        u2.isBanned = true
      exact banned_exists_of_eq (sendDm_users st sid c t ok now) ⟨u, hL, hb⟩
    | disconnectOp sid now =>
      show ∃ u2, findUserL (disconnectSocket st sid now).1.users target = some u2 ∧
        u2.isBanned = true
      rcases disconnectSocket_users st sid now with he | ⟨uid2, he⟩
      · exact banned_exists_of_eq he ⟨u, hL, hb⟩
      · rw [he]
        exact banned_after_update st.users target uid2 _ (fun w => rfl)
          (fun w hw => hw) u hL hb
    | loginOp g now =>
      show ∃ u2, findUserL (authGoogle st g now).1.users target = some u2 ∧
        u2.isBanned = true
      rcases authGoogle_users st g now with he | ⟨row, he⟩ | ⟨uid2, f, hfid, hfban, he⟩
      · exact banned_exists_of_eq he ⟨u, hL, hb⟩
      · rw [he]
        exact banned_after_append st.users target row u hL hb
      · rw [he]
        exact banned_after_update st.users target uid2 f hfid
          (fun w hw => by rw [hfban]; exact hw) u hL hb
    | banOp uid2 =>
      show ∃ u2, findUserL (adminBan st uid2).1.users target = some u2 ∧
        u2.isBanned = true
      exact banned_after_update st.users target uid2 _ (fun w => rfl)
        (fun w hw => rfl) u hL hb
    | unbanOp uid2 =>
      have hneq : target ≠ uid2 := by
        intro hcontra
        exact hne (by rw [hcontra])
      show ∃ u2, findUserL (adminUnban st uid2).1.users target = some u2 ∧
        u2.isBanned = true
      refine ⟨u, ?_, hb⟩
      show findUserL (updateUser st.users uid2
        (fun w => { w with isBanned := false })) target = some u
      rw [findUserL_updateUser_ne st.users uid2 target hneq
        (fun w => { w with isBanned := false }) (fun w => rfl), hL]
    | deleteMessageOp m =>
      show ∃ u2, findUserL (adminDeleteMessage st m).1.users target = some u2 ∧
        u2.isBanned = true
      exact banned_exists_of_eq (adminDeleteMessage_users st m) ⟨u, hL, hb⟩
    | setNameOp uid2 n =>
      show ∃ u2, findUserL (setNameEndpoint st uid2 n).1.users target = some u2 ∧
        u2.isBanned = true
      rcases setNameEndpoint_users st uid2 n with he | he
      · exact banned_exists_of_eq he ⟨u, hL, hb⟩
      · rw [he]
        exact banned_after_update st.users target uid2 _ (fun w => rfl)
          (fun w hw => hw) u hL hb
    | setPhotoOp uid2 ph =>
      show ∃ u2, findUserL (setPhotoEndpoint st uid2 ph).1.users target = some u2 ∧
        u2.isBanned = true
      rcases setPhotoEndpoint_users st uid2 ph with he | he
      · exact banned_exists_of_eq he ⟨u, hL, hb⟩
      · rw [he]
        exact banned_after_update st.users target uid2 _ (fun w => rfl)
          (fun w hw => hw) u hL hb

/-- C4 (witness): banning Bob while he is live on sockets `b1` and `b2`
notifies and disconnects both, flags his row, and blocks his socket and HTTP
authentication in the post-ban state; an unrelated disconnect keeps the flag. -/
theorem C4_ban_evicts_and_blocks_witness :
    (Output.emit "b1" "banned" "" ∈ (adminBan liveBobState "B").2 ∧
      Output.disconnectSock "b1" ∈ (adminBan liveBobState "B").2) ∧
    findUser (adminBan liveBobState "B").1 "B" =
      some ⟨"B", "Bob", "pic0", "e", false, true, 0⟩ ∧
    socketAuth (adminBan liveBobState "B").1 "b9" (some "B") 5 =
      ((adminBan liveBobState "B").1, [Output.emit "b9" "banned" ""]) ∧
    (authGoogle (adminBan liveBobState "B").1 (some ⟨"B", "Bob", "p", "e"⟩) 5).2 =
      AuthGoogleResult.error 403 "Tu cuenta ha sido baneada de Therians." ∧
    (∃ u2, findUser (step (adminBan liveBobState "B").1
        (Op.disconnectOp "s1" 6)).1 "B" = some u2 ∧ u2.isBanned = true) :=
  ⟨C4_ban_evicts_and_blocks.1 liveBobState "B" ("b1", ⟨"B", "Bob", "pic0", false⟩)
      (by decide) rfl,
   C4_ban_evicts_and_blocks.2.2.1 liveBobState "B"
      ⟨"B", "Bob", "pic0", "e", false, false, 0⟩ (by decide),
   C4_ban_evicts_and_blocks.2.2.2.1 (adminBan liveBobState "B").1 "B"
      ⟨"B", "Bob", "pic0", "e", false, true, 0⟩ "b9" 5 (by decide) (by decide),
   C4_ban_evicts_and_blocks.2.2.2.2.1 (adminBan liveBobState "B").1 "B"
      ⟨"B", "Bob", "pic0", "e", false, true, 0⟩ ⟨"B", "Bob", "p", "e"⟩ 5
      (by decide) (by decide) rfl,
   C4_ban_evicts_and_blocks.2.2.2.2.2 (adminBan liveBobState "B").1 "B"
      ⟨"B", "Bob", "pic0", "e", false, true, 0⟩ (Op.disconnectOp "s1" 6)
      (by decide) (by decide) (by decide)⟩

/-! ### Claim C8 — at most one channel per connection -/

/-- C8: every connection is a member of at most one channel: the invariant
holds in the initial state and is preserved by every operation of the core;
moreover both join handlers leave every currently joined channel before
joining, so after a join the connection's membership is exactly the one new
channel. -/
theorem C8_at_most_one_channel :
    atMostOneChannel initialState ∧
    (∀ st op, atMostOneChannel st → atMostOneChannel (step st op).1) ∧
    (∀ st sid roomId,
      (joinRoom st sid roomId).1.rooms =
        joinChannel (leaveAllChannels st.rooms sid) sid ("room_" ++ roomId) ∧
      roomsOf (joinRoom st sid roomId).1 sid = ["room_" ++ roomId]) ∧
    (∀ st sid chatId user, getAssoc st.connectedUsers sid = some user →
      ((splitUnderscore chatId).contains user.uid) = true →
      (joinDm st sid chatId).1.rooms =
        joinChannel (leaveAllChannels st.rooms sid) sid ("dm_" ++ chatId) ∧
      roomsOf (joinDm st sid chatId).1 sid = ["dm_" ++ chatId]) := by
  refine ⟨?_, ?_, ?_, ?_⟩
  · intro p hp
    cases hp
  · intro st op h
    cases op with
    | authOp sid d now => exact atMostOne_of_rooms_eq (socketAuth_rooms st sid d now) h
    | joinRoomOp sid r =>
      intro p hp
      rw [show (step st (Op.joinRoomOp sid r)).1.rooms =
        setAssoc st.rooms sid ["room_" ++ r] from joinRoom_rooms st sid r] at hp
      exact atMostOne_setAssoc st.rooms sid _ (by simp) h p hp
    | joinDmOp sid c =>
      rcases joinDm_rooms st sid c with hr | hr
      · exact atMostOne_of_rooms_eq hr h
      · intro p hp
        rw [show (step st (Op.joinDmOp sid c)).1.rooms =
          setAssoc st.rooms sid ["dm_" ++ c] from hr] at hp
        exact atMostOne_setAssoc st.rooms sid _ (by simp) h p hp
    | sendMessageOp sid r t ok now =>
      exact atMostOne_of_rooms_eq (sendMessage_rooms st sid r t ok now) h
    | sendDmOp sid c t ok now =>
      exact atMostOne_of_rooms_eq (sendDm_rooms st sid c t ok now) h
    | disconnectOp sid now =>
      intro p hp
      rw [show (step st (Op.disconnectOp sid now)).1.rooms =
        delAssoc st.rooms sid from disconnectSocket_rooms st sid now] at hp
      exact atMostOne_filter st.rooms _ h p hp
    | loginOp g now => exact atMostOne_of_rooms_eq (authGoogle_rooms st g now) h
    | banOp uid =>
      obtain ⟨f, hf⟩ := adminBan_rooms st uid
      intro p hp
      rw [show (step st (Op.banOp uid)).1.rooms = st.rooms.filter f from hf] at hp
      exact atMostOne_filter st.rooms f h p hp
    | unbanOp uid => exact atMostOne_of_rooms_eq rfl h
    | deleteMessageOp m =>
      exact atMostOne_of_rooms_eq (adminDeleteMessage_rooms st m) h
    | setNameOp uid n =>
      exact atMostOne_of_rooms_eq (setNameEndpoint_rooms st uid n) h
    | setPhotoOp uid ph =>
      exact atMostOne_of_rooms_eq (setPhotoEndpoint_rooms st uid ph) h
  · intro st sid roomId
    exact ⟨by rw [joinRoom_rooms, joinChannel_leaveAll], roomsOf_joinRoom st sid roomId⟩
  · intro st sid chatId user h hc
    constructor
    · simp only [joinDm, h, hc, if_true]
    · unfold roomsOf
      simp only [joinDm, h, hc, if_true]
      rw [joinChannel_leaveAll, getAssoc_setAssoc_self]
      rfl

/-- C8 (witness): the invariant holds after Alice's socket joins room
`lounge` from the initial state, and her membership is exactly that room. -/
theorem C8_at_most_one_channel_witness :
    atMostOneChannel (step initialState (Op.joinRoomOp "s1" "lounge")).1 ∧
    roomsOf (joinRoom initialState "s1" "lounge").1 "s1" = ["room_lounge"] :=
  ⟨C8_at_most_one_channel.2.1 initialState (Op.joinRoomOp "s1" "lounge")
      (C8_at_most_one_channel.1),
   (C8_at_most_one_channel.2.2.1 initialState "s1" "lounge").2⟩

/-! ### Claim C9 — joining a room needs no authentication -/

/-- C9: `join_room` consults no authentication state: any socket — including
one with no session registry entry — always succeeds, its membership becomes
exactly the requested room, the registry is untouched, and it is among the
members that subsequent broadcasts to that room reach (every valid send to
the room emits one broadcast addressed to that channel, and sends do not
change any channel's member set); yet the unauthenticated socket's own sends
are silently dropped. -/
theorem C9_join_room_unauthenticated :
    (∀ st sid roomId,
      roomsOf (joinRoom st sid roomId).1 sid = ["room_" ++ roomId] ∧
      (joinRoom st sid roomId).2 = [] ∧
      (joinRoom st sid roomId).1.connectedUsers = st.connectedUsers ∧
      sid ∈ membersOf (joinRoom st sid roomId).1 ("room_" ++ roomId)) ∧
    (∀ st sid2 roomId text now user,
      getAssoc st.connectedUsers sid2 = some user →
      ¬(text = "" ∨ jsTrim text = "" ∨ text.length > 500) →
      ∃ w, (sendMessage st sid2 roomId text true now).2 =
        [Output.broadcast ("room_" ++ roomId) "new_message" w]) ∧
    (∀ st sid2 roomId text dbOk now ch,
      membersOf (sendMessage st sid2 roomId text dbOk now).1 ch = membersOf st ch) ∧
    (∀ st sid roomId text dbOk now,
      getAssoc st.connectedUsers sid = none →
      sendMessage st sid roomId text dbOk now = (st, [])) := by
  refine ⟨?_, ?_, ?_, ?_⟩
  · intro st sid roomId
    refine ⟨roomsOf_joinRoom st sid roomId, rfl, rfl, ?_⟩
    unfold membersOf
    rw [joinRoom_rooms]
    refine List.mem_map.mpr ⟨(sid, ["room_" ++ roomId]), ?_, rfl⟩
    refine List.mem_filter.mpr ⟨List.mem_append_right _ (by simp), by simp⟩
  · intro st sid2 roomId text now user h hv
    exact ⟨⟨st.nextMsgId, roomId, user.uid, user.name, user.photo, user.premium,
      jsTrim text, now⟩, by simp [sendMessage, h, hv]⟩
  · intro st sid2 roomId text dbOk now ch
    unfold membersOf
    rw [sendMessage_rooms]
  · intro st sid roomId text dbOk now h
    simp [sendMessage, h]

/-- C9 (witness): a fresh, never-authenticated socket `x1` joins `lounge`
and is a member there, while its own send is silently dropped. -/
theorem C9_join_room_unauthenticated_witness :
    "x1" ∈ membersOf (joinRoom initialState "x1" "lounge").1 "room_lounge" ∧
    sendMessage initialState "x1" "lounge" "hello" true 7 = (initialState, []) :=
  ⟨(C9_join_room_unauthenticated.1 initialState "x1" "lounge").2.2.2,
   C9_join_room_unauthenticated.2.2.2 initialState "x1" "lounge" "hello" true 7
     (by decide)⟩

end Therian
